import Mathlib

/-!
Verification of the `perf-events` crate's counter-set management
(`src/lib.rs`) and ring-buffer record-header decoding
(`src/sample/record.rs`) against its specification.

The Rust code is shallowly embedded: pure functions become Lean functions,
the kernel syscalls behind `EventCounter::new` / `enable` / `read` become
explicit oracle parameters, and a Rust `panic!` / `.unwrap()` abort (those
functions return `Self`, not `Result`, so there is no error channel) is
modelled as `Option.none`.
-/

namespace PerfEvents

/-! ## Raw ABI constants

The crate's `raw` module is external to the observed sources.
Modelled from the spec: the raw-ABI collaborator supplies the bit-flag
values of the Linux `perf_event_open` ABI — the cpu-mode subfield is the
low 3 bits (`PERF_RECORD_MISC_CPUMODE_MASK = 0b111`) holding the six
defined modes 0..5, and the three single-bit flags are bits 13, 14, 15. -/

def PERF_RECORD_MISC_CPUMODE_MASK : Nat := 7

def PERF_RECORD_MISC_CPUMODE_UNKNOWN : Nat := 0

def PERF_RECORD_MISC_KERNEL : Nat := 1

def PERF_RECORD_MISC_USER : Nat := 2

def PERF_RECORD_MISC_HYPERVISOR : Nat := 3

def PERF_RECORD_MISC_GUEST_KERNEL : Nat := 4

def PERF_RECORD_MISC_GUEST_USER : Nat := 5

def PERF_RECORD_MISC_MMAP_DATA : Nat := 2 ^ 13

def PERF_RECORD_MISC_EXACT_IP : Nat := 2 ^ 14

def PERF_RECORD_MISC_EXT_RESERVED : Nat := 2 ^ 15

/-- Modelled from the spec: the raw-ABI collaborator supplies the numeric
tag values for `SampledEventType` (the kernel's `perf_event_type` wire
values 1..15; `PERF_RECORD_THROTTLE = 5` and `PERF_RECORD_UNTHROTTLE = 6`
are distinct tags, the source's enum binds only the former). -/
def PERF_RECORD_MMAP : Nat := 1

def PERF_RECORD_LOST : Nat := 2

def PERF_RECORD_COMM : Nat := 3

def PERF_RECORD_EXIT : Nat := 4

def PERF_RECORD_THROTTLE : Nat := 5

def PERF_RECORD_FORK : Nat := 7

def PERF_RECORD_READ : Nat := 8

def PERF_RECORD_SAMPLE : Nat := 9

def PERF_RECORD_MMAP2 : Nat := 10

def PERF_RECORD_AUX : Nat := 11

def PERF_RECORD_ITRACE_START : Nat := 12

def PERF_RECORD_LOST_SAMPLES : Nat := 13

def PERF_RECORD_SWITCH : Nat := 14

def PERF_RECORD_SWITCH_CPU_WIDE : Nat := 15

/-! ## `src/sample/record.rs` -/

/-- The CPU mode enumeration of `record.rs`. -/
inductive CpuMode
  | Unknown
  | Kernel
  | User
  | Hypervisor
  | GuestKernel
  | GuestUser
deriving DecidableEq

/-- Embedding of `impl From<u16> for CpuMode` (`record.rs` lines 106-118).
The scrutinee is `n as u32 | PERF_RECORD_MISC_CPUMODE_MASK` — bitwise OR,
exactly as written in the source.  The `other => panic!(..)` arm is
modelled as `none` (a process abort; the Rust function has no error
channel). -/
def CpuMode.fromU16 (n : Nat) : Option CpuMode :=
  let v := n ||| PERF_RECORD_MISC_CPUMODE_MASK
  if v = PERF_RECORD_MISC_CPUMODE_UNKNOWN then some .Unknown
  else if v = PERF_RECORD_MISC_KERNEL then some .Kernel
  else if v = PERF_RECORD_MISC_USER then some .User
  else if v = PERF_RECORD_MISC_HYPERVISOR then some .Hypervisor
  else if v = PERF_RECORD_MISC_GUEST_KERNEL then some .GuestKernel
  else if v = PERF_RECORD_MISC_GUEST_USER then some .GuestUser
  else none

/-- The decoded `misc` bitfield of `record.rs`. -/
structure Metadata where
  cpu_mode : CpuMode
  multipurpose_lol : Bool
  exact_ip : Bool
  reserved : Bool
deriving DecidableEq

/-- Embedding of `impl From<u16> for Metadata` (`record.rs` lines 79-88).
Each flag is computed by `(n as u32 | MASK) != 0` — bitwise OR, exactly as
in the source.  Rust evaluates the `_cpu_mode` field first, so a panic in
`CpuMode::from` aborts the whole construction: `none` here. -/
def Metadata.fromU16 (n : Nat) : Option Metadata :=
  (CpuMode.fromU16 n).map fun cm =>
    { cpu_mode := cm
      multipurpose_lol := decide ((n ||| PERF_RECORD_MISC_MMAP_DATA) ≠ 0)
      exact_ip := decide ((n ||| PERF_RECORD_MISC_EXACT_IP) ≠ 0)
      reserved := decide ((n ||| PERF_RECORD_MISC_EXT_RESERVED) ≠ 0) }

/-- The closed enumeration of kernel record kinds (`record.rs` lines
122-140). -/
inductive SampledEventType
  | Mmap
  | Lost
  | Comm
  | Exit
  | ThrottleUnthrotte
  | Fork
  | Read
  | Sample
  | Mmap2
  | Aux
  | ItraceStart
  | LostSamples
  | Switch
  | SwitchCpuWide
deriving DecidableEq

/-- Embedding of the `enum_from_primitive!`-generated
`SampledEventType::from_u32`: exact numeric match against the listed
discriminants, `none` for any other value. -/
def SampledEventType.fromU32 (n : Nat) : Option SampledEventType :=
  if n = PERF_RECORD_MMAP then some .Mmap
  else if n = PERF_RECORD_LOST then some .Lost
  else if n = PERF_RECORD_COMM then some .Comm
  else if n = PERF_RECORD_EXIT then some .Exit
  else if n = PERF_RECORD_THROTTLE then some .ThrottleUnthrotte
  else if n = PERF_RECORD_FORK then some .Fork
  else if n = PERF_RECORD_READ then some .Read
  else if n = PERF_RECORD_SAMPLE then some .Sample
  else if n = PERF_RECORD_MMAP2 then some .Mmap2
  else if n = PERF_RECORD_AUX then some .Aux
  else if n = PERF_RECORD_ITRACE_START then some .ItraceStart
  else if n = PERF_RECORD_LOST_SAMPLES then some .LostSamples
  else if n = PERF_RECORD_SWITCH then some .Switch
  else if n = PERF_RECORD_SWITCH_CPU_WIDE then some .SwitchCpuWide
  else none

/-- The fixed-width kernel header struct `perf_event_header` (raw ABI):
a `u32` type tag, a `u16` misc bitfield and a `u16` size. -/
structure perf_event_header where
  type_ : Nat
  misc : Nat
  size : Nat
deriving DecidableEq

/-- The typed header of `record.rs` lines 27-31. -/
structure EventHeader where
  event_type : SampledEventType
  misc : Metadata
  size : Nat
deriving DecidableEq

/-- Embedding of `impl From<&perf_event_header> for EventHeader`
(`record.rs` lines 33-41).  The source calls
`SampledEventType::from_u32(raw.type_).unwrap()` — the `.unwrap()` on a
`None` is a process abort, modelled as `none`, and a panic inside
`Metadata::from(raw.misc)` likewise propagates. -/
def EventHeader.fromRaw (raw : perf_event_header) : Option EventHeader :=
  match SampledEventType.fromU32 raw.type_, Metadata.fromU16 raw.misc with
  | some t, some m => some { event_type := t, misc := m, size := raw.size }
  | _, _ => none

/-! ### Key arithmetic fact: ORing with the 3-bit mask saturates it -/

/-- The low three bits of `n ||| 7` are all set. -/
lemma or_mask_and_mask (n : Nat) : (n ||| 7) &&& 7 = 7 := by
  rw [Nat.and_comm, Nat.and_or_distrib_left, Nat.and_self]
  have h7 : 7 &&& n ≤ 7 := Nat.and_le_left
  have hlt : 7 &&& n < 8 := Nat.lt_succ_of_le h7
  have hall : ∀ x < 8, x ||| 7 = 7 := by decide
  exact hall (7 &&& n) hlt

/-- `n ||| 7` never equals a value below 7; in particular it matches none
of the six defined cpu-mode constants 0..5. -/
lemma or_mask_ne (n k : Nat) (hk : k < 7) : n ||| 7 ≠ k := by
  intro h
  have h2 : (n ||| 7) &&& 7 = k &&& 7 := by rw [h]
  rw [or_mask_and_mask] at h2
  have h3 : k &&& 7 ≤ k := Nat.and_le_left
  omega

/-! ## `src/lib.rs` — counter-set management

`Event` is an opaque totally ordered key from the external catalogue
(modelled as `Nat`); `OpenError` and the counter file descriptor are
likewise opaque.  The kernel side of `EventCounter::new` is an oracle
parameter `kernelOpen`, so theorems quantify over every possible pattern
of per-event open successes and failures. -/

abbrev Event := Nat

abbrev OpenError := Nat

/-- `PidConfig` of `lib.rs` lines 138-142. -/
inductive PidConfig
  | Current
  | Other (p : Int)
deriving DecidableEq

/-- `PidConfig::raw` (`lib.rs` lines 144-151). -/
def PidConfig.raw : PidConfig → Int
  | .Current => 0
  | .Other p => p

/-- `CpuConfig` of `lib.rs` lines 153-157. -/
inductive CpuConfig
  | All
  | Specific (c : Int)
deriving DecidableEq

/-- `CpuConfig::raw` (`lib.rs` lines 159-166). -/
def CpuConfig.raw : CpuConfig → Int
  | .All => -1
  | .Specific c => c

/-- An open kernel counter handle, keyed by `(Event, PidConfig, CpuConfig)`
with its kernel resource (file descriptor). -/
structure EventCounter where
  event : Event
  pid : PidConfig
  cpu : CpuConfig
  fd : Nat
deriving DecidableEq

/-- The kernel's answer to one scoped open request: a resource handle or
an `OpenError`. -/
abbrev KernelOpen := Event → PidConfig → CpuConfig → Except OpenError Nat

/-- Modelled from the spec: `counter.rs` (not under `src/`) defines
`EventCounter::new(event, pid, cpu) -> Result<EventCounter, OpenError>`,
which issues the scoped open request to the kernel for the given event and
fails with the `OpenError` carrying the underlying reason.  The kernel's
response is the oracle `kernelOpen`. -/
def EventCounter.new (kernelOpen : KernelOpen) (event : Event)
    (pid : PidConfig) (cpu : CpuConfig) : Except OpenError EventCounter :=
  match kernelOpen event pid cpu with
  | .ok fd => .ok { event := event, pid := pid, cpu := cpu, fd := fd }
  | .error why => .error why

/-- `Counts` (`lib.rs` lines 30-32): owns an ordered collection of
counters. -/
structure Counts where
  counters : List EventCounter
deriving DecidableEq

/-- `CountsBuilder` (`lib.rs` lines 83-88).  The `BTreeSet<Event>` is
modelled as a strictly sorted list; `btreeInsert` below is its ordered
dedup insertion. -/
structure CountsBuilder where
  pid : PidConfig
  cpu : CpuConfig
  to_count : List Event
deriving DecidableEq

/-- Ordered dedup insertion of the `BTreeSet<Event>` held by the builder. -/
def btreeInsert (e : Event) : List Event → List Event
  | [] => [e]
  | x :: xs =>
    if e < x then e :: x :: xs
    else if e = x then x :: xs
    else x :: btreeInsert e xs

/-- `Counts::new` (`lib.rs` lines 35-41): a builder with an empty request
set. -/
def Counts.new (pid : PidConfig) (cpu : CpuConfig) : CountsBuilder :=
  { pid := pid, cpu := cpu, to_count := [] }

/-- `CountsBuilder::event` (`lib.rs` lines 99-102): insert into the
request set. -/
def CountsBuilder.event (b : CountsBuilder) (e : Event) : CountsBuilder :=
  { b with to_count := btreeInsert e b.to_count }

/-- `CountsBuilder::all_available` (`lib.rs` lines 91-97): add every
catalogued event (the catalogue `allEvents` is the external
`Event::all_events()`). -/
def CountsBuilder.all_available (b : CountsBuilder) (allEvents : List Event) :
    CountsBuilder :=
  allEvents.foldl (fun b e => b.event e) b

/-- `CountsBuilder::create` (`lib.rs` lines 104-135): open one counter per
requested event, pushing successes onto `counters` and recording failures
in the `BTreeMap` (here an association list built in ascending key order,
since `to_count` is iterated in ascending order). -/
def CountsBuilder.create (kernelOpen : KernelOpen) (b : CountsBuilder) :
    Except Unit Counts × Except (List (Event × OpenError)) Unit :=
  let r := b.to_count.foldl
    (fun (acc : List EventCounter × List (Event × OpenError)) event =>
      match EventCounter.new kernelOpen event b.pid b.cpu with
      | .ok c => (acc.1 ++ [c], acc.2)
      | .error why => (acc.1, acc.2 ++ [(event, why)]))
    ([], [])
  let ret_counts : Except Unit Counts :=
    if r.1.length = 0 then .error () else .ok { counters := r.1 }
  let ret_failures : Except (List (Event × OpenError)) Unit :=
    if r.2.length = 0 then .ok () else .error r.2
  (ret_counts, ret_failures)

/-- `Counts::start` (`lib.rs` lines 43-45): enable every counter, one
result per counter, no short-circuiting.  The kernel's answer to each
enable request is the oracle `enable`. -/
def Counts.start (enable : EventCounter → Except String Unit) (c : Counts) :
    List (Except String Unit) :=
  c.counters.map enable

/-- `Counts::read` (`lib.rs` lines 47-58): read every counter, keeping
exactly the successful `(Event, count)` results (failures are only
debug-logged and dropped from the snapshot).  The kernel's answer to each
read request is the oracle `readCounter`. -/
def Counts.read (readCounter : EventCounter → Except String (Event × Nat))
    (c : Counts) : List (Event × Nat) :=
  c.counters.filterMap fun ctr => (readCounter ctr).toOption

/-- `Counts::start_all_available` (`lib.rs` lines 60-80): request every
catalogued event for the current process across all CPUs, create, start
the successes (enabling is a kernel effect that does not change the
aggregate value), and fail only when the aggregate itself failed. -/
def Counts.start_all_available (allEvents : List Event)
    (kernelOpen : KernelOpen) : Except String Counts :=
  let res := ((Counts.new .Current .All).all_available allEvents).create
    kernelOpen
  match res.1 with
  | .ok counts => .ok counts
  | .error _ => .error "No counters started successfully."

/-! ### Characterisation of `create` -/

/-- The successfully opened counters of a `create` run, in request
order. -/
def createCounters (kernelOpen : KernelOpen) (b : CountsBuilder) :
    List EventCounter :=
  b.to_count.filterMap fun e =>
    (EventCounter.new kernelOpen e b.pid b.cpu).toOption

/-- The per-event open failures of a `create` run, in request order. -/
def createFailures (kernelOpen : KernelOpen) (b : CountsBuilder) :
    List (Event × OpenError) :=
  b.to_count.filterMap fun e =>
    match EventCounter.new kernelOpen e b.pid b.cpu with
    | .ok _ => none
    | .error why => some (e, why)

/-- The key list of the failure side of `create`'s return value. -/
def failureKeys : Except (List (Event × OpenError)) Unit → List Event
  | .error m => m.map Prod.fst
  | .ok _ => []

lemma create_foldl_eq (kernelOpen : KernelOpen) (pid : PidConfig)
    (cpu : CpuConfig) (l : List Event) (cs : List EventCounter)
    (fs : List (Event × OpenError)) :
    l.foldl
      (fun (acc : List EventCounter × List (Event × OpenError)) event =>
        match EventCounter.new kernelOpen event pid cpu with
        | .ok c => (acc.1 ++ [c], acc.2)
        | .error why => (acc.1, acc.2 ++ [(event, why)]))
      (cs, fs) =
    (cs ++ l.filterMap (fun e => (EventCounter.new kernelOpen e pid cpu).toOption),
     fs ++ l.filterMap (fun e =>
       match EventCounter.new kernelOpen e pid cpu with
       | .ok _ => none
       | .error why => some (e, why))) := by
  induction l generalizing cs fs with
  | nil => simp
  | cons e l ih =>
    simp only [List.foldl_cons, List.filterMap_cons]
    cases h : EventCounter.new kernelOpen e pid cpu with
    | ok c => simp [h, ih, Except.toOption]
    | error why => simp [h, ih, Except.toOption]

/-- `create` returns exactly the success/failure partition, each side
wrapped in its emptiness test. -/
lemma create_eq (kernelOpen : KernelOpen) (b : CountsBuilder) :
    b.create kernelOpen =
      ((if (createCounters kernelOpen b).length = 0 then .error ()
        else .ok { counters := createCounters kernelOpen b }),
       (if (createFailures kernelOpen b).length = 0 then .ok ()
        else .error (createFailures kernelOpen b))) := by
  unfold CountsBuilder.create createCounters createFailures
  rw [create_foldl_eq]
  simp

@[simp] lemma isOk_ok {ε α : Type} (a : α) :
    (Except.ok a : Except ε α).isOk = true := rfl

@[simp] lemma isOk_error {ε α : Type} (err : ε) :
    (Except.error err : Except ε α).isOk = false := rfl

lemma new_toOption_none (kernelOpen : KernelOpen) (e : Event)
    (p : PidConfig) (c : CpuConfig) :
    (EventCounter.new kernelOpen e p c).toOption = none ↔
      (kernelOpen e p c).isOk = false := by
  cases h : kernelOpen e p c <;>
    simp [EventCounter.new, h, Except.toOption]

lemma new_toOption_some_event (kernelOpen : KernelOpen) (e : Event)
    (p : PidConfig) (c : CpuConfig) (ctr : EventCounter)
    (h : (EventCounter.new kernelOpen e p c).toOption = some ctr) :
    ctr.event = e := by
  cases hk : kernelOpen e p c <;>
    simp [EventCounter.new, hk, Except.toOption] at h
  subst h
  rfl

lemma length_filterMap_isSome {α β : Type} (f : α → Option β) (l : List α) :
    (l.filterMap f).length = (l.filter fun a => (f a).isSome).length := by
  induction l with
  | nil => rfl
  | cons a l ih =>
    cases h : f a <;>
      simp [List.filterMap_cons, List.filter_cons, h, ih]

lemma createCounters_length (kernelOpen : KernelOpen) (b : CountsBuilder) :
    (createCounters kernelOpen b).length =
      (b.to_count.filter fun e => (kernelOpen e b.pid b.cpu).isOk).length := by
  rw [createCounters, length_filterMap_isSome]
  apply congrArg
  apply List.filter_congr
  intro e _
  cases h : kernelOpen e b.pid b.cpu <;>
    simp [EventCounter.new, h, Except.toOption]

lemma createCounters_eq_nil (kernelOpen : KernelOpen) (b : CountsBuilder) :
    createCounters kernelOpen b = [] ↔
      ∀ e ∈ b.to_count, (kernelOpen e b.pid b.cpu).isOk = false := by
  rw [createCounters, List.filterMap_eq_nil_iff]
  constructor
  · intro h e he
    exact (new_toOption_none kernelOpen e b.pid b.cpu).mp (h e he)
  · intro h e he
    exact (new_toOption_none kernelOpen e b.pid b.cpu).mpr (h e he)

lemma new_isOk (kernelOpen : KernelOpen) (e : Event) (p : PidConfig)
    (c : CpuConfig) :
    (EventCounter.new kernelOpen e p c).isOk = (kernelOpen e p c).isOk := by
  cases h : kernelOpen e p c <;> simp [EventCounter.new, h]

lemma createFailures_keys (kernelOpen : KernelOpen) (b : CountsBuilder) :
    (createFailures kernelOpen b).map Prod.fst =
      b.to_count.filter fun e => !(kernelOpen e b.pid b.cpu).isOk := by
  rw [createFailures]
  induction b.to_count with
  | nil => rfl
  | cons e l ih =>
    rw [List.filterMap_cons, List.filter_cons]
    cases h : EventCounter.new kernelOpen e b.pid b.cpu with
    | ok ctr =>
      have hok : (kernelOpen e b.pid b.cpu).isOk = true := by
        rw [← new_isOk kernelOpen e b.pid b.cpu, h]
        rfl
      simp [h, hok, ih]
    | error why =>
      have hok : (kernelOpen e b.pid b.cpu).isOk = false := by
        rw [← new_isOk kernelOpen e b.pid b.cpu, h]
        rfl
      simp [h, hok, ih]

lemma createFailures_eq_nil (kernelOpen : KernelOpen) (b : CountsBuilder) :
    createFailures kernelOpen b = [] ↔
      ∀ e ∈ b.to_count, (kernelOpen e b.pid b.cpu).isOk = true := by
  rw [createFailures, List.filterMap_eq_nil_iff]
  constructor
  · intro h e he
    have := h e he
    cases hk : kernelOpen e b.pid b.cpu <;>
      simp [EventCounter.new, hk] at this ⊢
  · intro h e he
    have := h e he
    cases hk : kernelOpen e b.pid b.cpu <;>
      simp [EventCounter.new, hk] at this ⊢

/-! ### Claim theorems for `create` -/

/-- C2: `create()` succeeds on the aggregate side iff at least one
requested event's counter opened, fails iff none opened, and an aggregate
that is returned is never empty. -/
theorem create_aggregate_ok_iff (kernelOpen : KernelOpen)
    (b : CountsBuilder) :
    ((b.create kernelOpen).1.isOk = true ↔
      ∃ e ∈ b.to_count, (kernelOpen e b.pid b.cpu).isOk = true)
    ∧ ((b.create kernelOpen).1 = .error () ↔
      ∀ e ∈ b.to_count, (kernelOpen e b.pid b.cpu).isOk = false)
    ∧ ∀ c, (b.create kernelOpen).1 = .ok c → c.counters ≠ [] := by
  rw [create_eq]
  by_cases hnil : createCounters kernelOpen b = []
  · refine ⟨?_, ?_, ?_⟩
    · simp only [hnil, List.length_nil, if_pos rfl]
      constructor
      · intro h
        simp at h
      · rintro ⟨e, he, hok⟩
        have := (createCounters_eq_nil kernelOpen b).mp hnil e he
        rw [hok] at this
        cases this
    · simp only [hnil, List.length_nil, if_pos rfl]
      simp [createCounters_eq_nil kernelOpen b] at hnil
      simpa using hnil
    · intro c hc
      simp only [hnil, List.length_nil, if_pos rfl] at hc
      cases hc
  · have hlen : (createCounters kernelOpen b).length ≠ 0 := by
      simpa [List.length_eq_zero] using hnil
    refine ⟨?_, ?_, ?_⟩
    · simp only [if_neg hlen]
      constructor
      · intro _
        by_contra hno
        push_neg at hno
        have : ∀ e ∈ b.to_count, (kernelOpen e b.pid b.cpu).isOk = false := by
          intro e he
          have := hno e he
          cases hk : kernelOpen e b.pid b.cpu <;>
            simp [hk] at this ⊢
        exact hnil ((createCounters_eq_nil kernelOpen b).mpr this)
      · intro _
        simp
    · simp only [if_neg hlen]
      constructor
      · intro h
        cases h
      · intro h
        exact absurd ((createCounters_eq_nil kernelOpen b).mpr h) hnil
    · intro c hc
      simp only [if_neg hlen] at hc
      cases hc
      simpa using hnil

/-- C3: `create()` partitions the requests exactly — the returned
aggregate holds one counter per successful open, the failure map's keys
are exactly the failed events, the failure side is an error iff at least
one event failed, and a returned failure map is never empty. -/
theorem create_partitions_requests (kernelOpen : KernelOpen)
    (b : CountsBuilder) :
    (∀ c, (b.create kernelOpen).1 = .ok c →
      c.counters.length =
        (b.to_count.filter fun e => (kernelOpen e b.pid b.cpu).isOk).length)
    ∧ failureKeys (b.create kernelOpen).2 =
        (b.to_count.filter fun e => !(kernelOpen e b.pid b.cpu).isOk)
    ∧ ((b.create kernelOpen).2.isOk = false ↔
        ∃ e ∈ b.to_count, (kernelOpen e b.pid b.cpu).isOk = false)
    ∧ ∀ m, (b.create kernelOpen).2 = .error m → m ≠ [] := by
  rw [create_eq]
  refine ⟨?_, ?_, ?_, ?_⟩
  · intro c hc
    by_cases hlen : (createCounters kernelOpen b).length = 0
    · simp only [if_pos hlen] at hc
      cases hc
    · simp only [if_neg hlen] at hc
      cases hc
      exact createCounters_length kernelOpen b
  · by_cases hlen : (createFailures kernelOpen b).length = 0
    · have hnil : createFailures kernelOpen b = [] := by
        simpa [List.length_eq_zero] using hlen
      simp only [if_pos hlen, failureKeys]
      have hall := (createFailures_eq_nil kernelOpen b).mp hnil
      symm
      rw [List.filter_eq_nil_iff]
      intro e he
      simp [hall e he]
    · simp only [if_neg hlen, failureKeys]
      exact createFailures_keys kernelOpen b
  · by_cases hlen : (createFailures kernelOpen b).length = 0
    · have hnil : createFailures kernelOpen b = [] := by
        simpa [List.length_eq_zero] using hlen
      simp only [if_pos hlen]
      have hall := (createFailures_eq_nil kernelOpen b).mp hnil
      constructor
      · intro h
        simp at h
      · rintro ⟨e, he, hbad⟩
        rw [hall e he] at hbad
        cases hbad
    · simp only [if_neg hlen]
      have hnil : createFailures kernelOpen b ≠ [] := by
        intro h
        exact hlen (by simp [h])
      constructor
      · intro _
        by_contra hno
        push_neg at hno
        have : ∀ e ∈ b.to_count, (kernelOpen e b.pid b.cpu).isOk = true := by
          intro e he
          have := hno e he
          cases hk : kernelOpen e b.pid b.cpu <;>
            simp [hk] at this ⊢
        exact hnil ((createFailures_eq_nil kernelOpen b).mpr this)
      · intro _
        simp
  · intro m hm
    by_cases hlen : (createFailures kernelOpen b).length = 0
    · simp only [if_pos hlen] at hm
      cases hm
    · simp only [if_neg hlen] at hm
      cases hm
      intro h
      exact hlen (by simp [h])

/-- C10: `create()` on a builder whose request set is empty returns
`(Err(()), Ok(()))` — the aggregate side indistinguishable from
"every open failed", the failure side clean. -/
theorem create_empty_builder (kernelOpen : KernelOpen) (pid : PidConfig)
    (cpu : CpuConfig) :
    (Counts.new pid cpu).create kernelOpen =
      (Except.error (), Except.ok ()) := rfl

/-! ### `start_all_available` and `read` -/

lemma start_all_available_eq (allEvents : List Event)
    (kernelOpen : KernelOpen) :
    Counts.start_all_available allEvents kernelOpen =
      match (((Counts.new .Current .All).all_available allEvents).create
          kernelOpen).1 with
      | .ok counts => .ok counts
      | .error _ => .error "No counters started successfully." := rfl

/-- C7: `start_all_available` fails iff the underlying `create` produced
zero counters, and otherwise returns exactly the created aggregate. -/
theorem start_all_available_err_iff (allEvents : List Event)
    (kernelOpen : KernelOpen) :
    ((Counts.start_all_available allEvents kernelOpen).isOk = false ↔
      (((Counts.new .Current .All).all_available allEvents).create
          kernelOpen).1 = .error ())
    ∧ ∀ c, (((Counts.new .Current .All).all_available allEvents).create
          kernelOpen).1 = .ok c →
        Counts.start_all_available allEvents kernelOpen = .ok c := by
  rw [start_all_available_eq]
  cases h : (((Counts.new .Current .All).all_available allEvents).create
      kernelOpen).1 with
  | ok counts =>
    refine ⟨⟨fun hb => by simp at hb, fun hb => ?_⟩, fun c hc => ?_⟩
    · cases hb
    · cases hc
      rfl
  | error u =>
    refine ⟨⟨fun _ => by cases u; rfl, fun _ => by simp⟩, fun c hc => ?_⟩
    cases hc

lemma toOption_eq_some {ε α : Type} (x : Except ε α) (a : α) :
    x.toOption = some a ↔ x = .ok a := by
  cases x <;> simp [Except.toOption]

/-- C8: `read()` returns the `(Event, count)` pairs of exactly those
counters whose read succeeded; a per-counter failure only drops that
counter's entry. -/
theorem read_best_effort
    (readCounter : EventCounter → Except String (Event × Nat))
    (c : Counts) :
    (∀ p, p ∈ c.read readCounter ↔
      ∃ ctr ∈ c.counters, readCounter ctr = .ok p)
    ∧ (c.read readCounter).length =
        (c.counters.filter fun ctr => (readCounter ctr).isOk).length := by
  constructor
  · intro p
    rw [Counts.read, List.mem_filterMap]
    constructor
    · rintro ⟨ctr, hmem, hsome⟩
      exact ⟨ctr, hmem, (toOption_eq_some _ _).mp hsome⟩
    · rintro ⟨ctr, hmem, hok⟩
      exact ⟨ctr, hmem, (toOption_eq_some _ _).mpr hok⟩
  · rw [Counts.read, length_filterMap_isSome]
    apply congrArg
    apply List.filter_congr
    intro ctr _
    cases h : readCounter ctr <;> simp [h, Except.toOption]

/-! ### Builder set semantics -/

lemma btreeInsert_idem (e : Event) (l : List Event) :
    btreeInsert e (btreeInsert e l) = btreeInsert e l := by
  induction l with
  | nil => simp [btreeInsert]
  | cons x xs ih =>
    by_cases h1 : e < x
    · simp [btreeInsert, h1, lt_irrefl]
    · by_cases h2 : e = x
      · subst h2
        simp [btreeInsert, lt_irrefl]
      · simp only [btreeInsert, if_neg h1, if_neg h2]
        rw [ih]

lemma mem_btreeInsert {a e : Event} {l : List Event} :
    a ∈ btreeInsert e l ↔ a = e ∨ a ∈ l := by
  induction l with
  | nil => simp [btreeInsert]
  | cons x xs ih =>
    by_cases h1 : e < x
    · simp only [btreeInsert, if_pos h1, List.mem_cons]
    · by_cases h2 : e = x
      · subst h2
        have hrw : btreeInsert e (e :: xs) = e :: xs := by
          simp [btreeInsert, lt_irrefl]
        rw [hrw, List.mem_cons]
        tauto
      · simp only [btreeInsert, if_neg h1, if_neg h2, List.mem_cons, ih]
        tauto

lemma pairwise_btreeInsert (e : Event) (l : List Event)
    (h : l.Pairwise (· < ·)) : (btreeInsert e l).Pairwise (· < ·) := by
  induction l with
  | nil => simp [btreeInsert]
  | cons x xs ih =>
    rw [List.pairwise_cons] at h
    obtain ⟨hx, hxs⟩ := h
    by_cases h1 : e < x
    · simp only [btreeInsert, if_pos h1]
      refine List.Pairwise.cons ?_ (List.Pairwise.cons hx hxs)
      intro b hb
      rcases List.mem_cons.mp hb with rfl | hb2
      · exact h1
      · exact lt_trans h1 (hx b hb2)
    · by_cases h2 : e = x
      · subst h2
        simp only [btreeInsert, if_neg h1, if_pos rfl]
        exact List.Pairwise.cons hx hxs
      · have h3 : x < e :=
          lt_of_le_of_ne (Nat.le_of_not_lt h1) fun hxe => h2 hxe.symm
        simp only [btreeInsert, if_neg h1, if_neg h2]
        refine List.Pairwise.cons ?_ (ih hxs)
        intro b hb
        rcases mem_btreeInsert.mp hb with rfl | hb2
        · exact h3
        · exact hx b hb2

lemma counters_filter_event_le_one (kernelOpen : KernelOpen)
    (p : PidConfig) (c : CpuConfig) (ev : Event) (l : List Event)
    (h : l.Nodup) :
    ((l.filterMap fun e => (EventCounter.new kernelOpen e p c).toOption).filter
      fun ctr => ctr.event == ev).length ≤ 1 := by
  induction l with
  | nil => simp
  | cons e l ih =>
    rw [List.nodup_cons] at h
    obtain ⟨hnotin, hnd⟩ := h
    rw [List.filterMap_cons]
    cases hne : (EventCounter.new kernelOpen e p c).toOption with
    | none => exact ih hnd
    | some ctr =>
      have hev : ctr.event = e :=
        new_toOption_some_event kernelOpen e p c ctr hne
      rw [List.filter_cons]
      by_cases heq : (ctr.event == ev) = true
      · have he_ev : e = ev := by
          rw [← hev]
          exact eq_of_beq heq
        have htail : ((l.filterMap fun e2 =>
            (EventCounter.new kernelOpen e2 p c).toOption).filter
              fun ctr2 => ctr2.event == ev) = [] := by
          rw [List.filter_eq_nil_iff]
          intro ctr2 hmem
          obtain ⟨e2, he2, hsome⟩ := List.mem_filterMap.mp hmem
          have hev2 : ctr2.event = e2 :=
            new_toOption_some_event kernelOpen e2 p c ctr2 hsome
          intro hb
          have : e2 = ev := by
            rw [← hev2]
            exact eq_of_beq hb
          rw [this, ← he_ev] at he2
          exact hnotin he2
        simp [heq, htail]
      · simp only [heq, if_neg (by simp [heq] : ¬(ctr.event == ev) = true)]
        exact ih hnd

/-- C9: requesting the same event twice is idempotent on the builder's
request set, and a successfully created aggregate holds at most one
counter per distinct event. -/
theorem event_idempotent_and_dedup (kernelOpen : KernelOpen)
    (b : CountsBuilder) (e : Event)
    (h : b.to_count.Pairwise (· < ·)) :
    (b.event e).event e = b.event e
    ∧ ∀ c, ((b.event e).create kernelOpen).1 = .ok c →
        ∀ ev, (c.counters.filter fun ctr => ctr.event == ev).length ≤ 1 := by
  constructor
  · simp [CountsBuilder.event, btreeInsert_idem]
  · intro c hc ev
    have hp : ((b.event e).to_count).Pairwise (· < ·) :=
      pairwise_btreeInsert e b.to_count h
    have hnd : ((b.event e).to_count).Nodup :=
      hp.imp fun hlt => Nat.ne_of_lt hlt
    rw [create_eq] at hc
    by_cases hlen : (createCounters kernelOpen (b.event e)).length = 0
    · simp only [if_pos hlen] at hc
      cases hc
    · simp only [if_neg hlen] at hc
      cases hc
      have := counters_filter_event_le_one kernelOpen (b.event e).pid
        (b.event e).cpu ev (b.event e).to_count hnd
      simpa [createCounters] using this

/-! ### Witnesses: the claim theorems applied at concrete inputs -/

/-- Witness for the aggregate-success side of `create`: with events
`{0, 1}` where only `0` opens, the aggregate is `Ok`. -/
theorem create_aggregate_ok_iff_witness :
    (((CountsBuilder.mk PidConfig.Current CpuConfig.All [0, 1]).create
      fun e _ _ => if e = 0 then Except.ok 7 else Except.error 1).1).isOk
      = true := by
  have h := (create_aggregate_ok_iff
    (fun e _ _ => if e = 0 then Except.ok 7 else Except.error 1)
    (CountsBuilder.mk PidConfig.Current CpuConfig.All [0, 1])).1
  exact h.mpr ⟨0, by decide, by rfl⟩

/-- Witness for the failure-map partition: with events `{0, 1}` where
only `0` opens, the failure map's keys are exactly `[1]`. -/
theorem create_partitions_requests_witness :
    failureKeys (((CountsBuilder.mk PidConfig.Current CpuConfig.All [0, 1]).create
      fun e _ _ => if e = 0 then Except.ok 7 else Except.error 1).2)
      = [1] := by
  have h := (create_partitions_requests
    (fun e _ _ => if e = 0 then Except.ok 7 else Except.error 1)
    (CountsBuilder.mk PidConfig.Current CpuConfig.All [0, 1])).2.1
  rw [h]
  rfl

/-- Witness: with catalogue `[0]` and an always-succeeding kernel,
`start_all_available` returns the one-counter aggregate. -/
theorem start_all_available_err_iff_witness :
    Counts.start_all_available [0] (fun _ _ _ => Except.ok 7) =
      Except.ok (Counts.mk
        [EventCounter.mk 0 PidConfig.Current CpuConfig.All 7]) := by
  apply (start_all_available_err_iff [0] fun _ _ _ => Except.ok 7).2
  rfl

/-- Witness: a successful per-counter read appears in the snapshot. -/
theorem read_best_effort_witness :
    (0, 5) ∈ (Counts.mk
        [EventCounter.mk 0 PidConfig.Current CpuConfig.All 7]).read
      fun ctr => Except.ok (ctr.event, 5) := by
  have h := (read_best_effort (fun ctr => Except.ok (ctr.event, 5))
    (Counts.mk [EventCounter.mk 0 PidConfig.Current CpuConfig.All 7])).1
    (0, 5)
  exact h.mpr
    ⟨EventCounter.mk 0 PidConfig.Current CpuConfig.All 7, by decide, rfl⟩

/-- Witness: inserting event `2` twice into the builder holding `{1, 3}`
equals inserting it once. -/
theorem event_idempotent_and_dedup_witness :
    ((CountsBuilder.mk PidConfig.Current CpuConfig.All [1, 3]).event 2).event 2
      = (CountsBuilder.mk PidConfig.Current CpuConfig.All [1, 3]).event 2 :=
  (event_idempotent_and_dedup (fun _ _ _ => Except.ok 7)
    (CountsBuilder.mk PidConfig.Current CpuConfig.All [1, 3]) 2
    (by decide)).1

/-! ### Record-header decoding claim theorems -/

lemma cpuMode_fromU16_none (n : Nat) : CpuMode.fromU16 n = none := by
  simp only [CpuMode.fromU16, PERF_RECORD_MISC_CPUMODE_MASK,
    PERF_RECORD_MISC_CPUMODE_UNKNOWN, PERF_RECORD_MISC_KERNEL,
    PERF_RECORD_MISC_USER, PERF_RECORD_MISC_HYPERVISOR,
    PERF_RECORD_MISC_GUEST_KERNEL, PERF_RECORD_MISC_GUEST_USER]
  rw [if_neg (or_mask_ne n 0 (by omega)), if_neg (or_mask_ne n 1 (by omega)),
    if_neg (or_mask_ne n 2 (by omega)), if_neg (or_mask_ne n 3 (by omega)),
    if_neg (or_mask_ne n 4 (by omega)), if_neg (or_mask_ne n 5 (by omega))]

/-- C1: `CpuMode::from` ORs the input with the cpu-mode mask instead of
ANDing, so the match scrutinee always has its low three bits saturated and
matches no defined mode: the `panic!` arm (here `none`, a process abort)
is taken on every input — including the six defined modes — contradicting
"defined modes decode, undefined modes are a reported decode error". -/
theorem cpuMode_from_always_panics (n : Nat) : CpuMode.fromU16 n = none :=
  cpuMode_fromU16_none n

lemma or_two_pow_ne_zero (n i : Nat) : n ||| 2 ^ i ≠ 0 := by
  intro h
  have hbit := congrArg (fun x => Nat.testBit x i) h
  simp only [Nat.testBit_or] at hbit
  rw [Nat.testBit_two_pow_self] at hbit
  simp [Nat.zero_testBit] at hbit

/-- C5: each of the three flag expressions of `Metadata::from` ORs the
input with its (nonzero) mask and tests the result against zero, so every
flag is `true` for every input — at `bits = 0` the claim requires all
three flags `false`; moreover `Metadata::from(0)` panics inside
`CpuMode::from` before the flags are even built. -/
theorem metadata_flags_always_true :
    Metadata.fromU16 0 = none
    ∧ ∀ n : Nat,
      decide ((n ||| PERF_RECORD_MISC_MMAP_DATA) ≠ 0) = true
      ∧ decide ((n ||| PERF_RECORD_MISC_EXACT_IP) ≠ 0) = true
      ∧ decide ((n ||| PERF_RECORD_MISC_EXT_RESERVED) ≠ 0) = true := by
  refine ⟨?_, fun n => ⟨?_, ?_, ?_⟩⟩
  · rw [Metadata.fromU16, cpuMode_fromU16_none]
    rfl
  · exact decide_eq_true (or_two_pow_ne_zero n 13)
  · exact decide_eq_true (or_two_pow_ne_zero n 14)
  · exact decide_eq_true (or_two_pow_ne_zero n 15)

/-- C4: a header whose type tag matches no `SampledEventType` variant
(tag `0` here) makes `SampledEventType::from_u32` return `None`, and
`EventHeader::from` `.unwrap()`s it: a process abort (`none`), not a
reported `DecodeError`. -/
theorem eventHeader_unrecognized_type_aborts :
    SampledEventType.fromU32 0 = none
    ∧ EventHeader.fromRaw { type_ := 0, misc := 2, size := 8 } = none := by
  constructor
  · decide
  · rfl

/-- C6: the synthetic header `event_type = Exit (tag 4), misc = 2 (User,
flags cleared), size = 40` does decode its type tag to `Exit`, but header
decoding as a whole aborts in `CpuMode::from` (`2 | 7 = 7` matches no
mode) instead of producing `EventHeader{ Exit, 40, User }`. -/
theorem exit_header_roundtrip_aborts :
    SampledEventType.fromU32 PERF_RECORD_EXIT = some .Exit
    ∧ EventHeader.fromRaw
        { type_ := PERF_RECORD_EXIT, misc := PERF_RECORD_MISC_USER,
          size := 40 } = none := by
  constructor
  · decide
  · decide

end PerfEvents
